import Mathlib

/-!
# Verification of the django-unicorn response-assembly engine

A shallow embedding of `src/django_unicorn/views/response.py`
(`ComponentResponse`): the component-tree data model, the call collector,
the checksum/not-modified decision, the ancestor walk with the markup merge
step, and the payload assembly, together with theorems settling the
specification's claims about them.

Conventions of the embedding:
* Rendered markup strings are represented by their parsed element trees
  (`Element`); the external templating collaborator's `get_root_element` /
  `html_element_to_string` pair is modelled as the identity between the two
  representations, with `elementToString` used as the deterministic
  serialization wherever the code checksums a markup string.
* Machine-level collaborators that are not part of the sources under
  verification (`generate_checksum`, the serializer) are modelled from the
  spec as concrete deterministic functions.
* The mutable `self.component_request.data` update is modelled by returning
  the updated request alongside the payload.
-/

/-! ## Key ordering (Python `sorted` over string keys)

Python's `sorted` on `dict` keys sorts the keys lexicographically by code
point.  `charLe` is that order on the underlying character lists, made
structurally recursive so that it evaluates by kernel reduction. -/

/-- Lexicographic-by-code-point comparison of character lists, as Python
compares strings. -/
def charLe : List Char → List Char → Bool
  | [], _ => true
  | _ :: _, [] => false
  | a :: as, b :: bs => if a = b then charLe as bs else decide (a < b)

/-- Python's `<=` on strings: lexicographic by code point. -/
def keyLe (a b : String) : Bool := charLe a.data b.data

theorem charLe_total (a b : List Char) : charLe a b = true ∨ charLe b a = true := by
  induction a generalizing b with
  | nil => exact Or.inl rfl
  | cons x xs ih =>
    cases b with
    | nil => exact Or.inr rfl
    | cons y ys =>
      by_cases hxy : x = y
      · subst hxy
        rcases ih ys with h | h
        · exact Or.inl (by simp [charLe, h])
        · exact Or.inr (by simp [charLe, h])
      · rcases lt_trichotomy x y with hlt | heq | hgt
        · exact Or.inl (by simp [charLe, hxy, hlt])
        · exact absurd heq hxy
        · refine Or.inr ?_
          have hyx : ¬ y = x := fun h => hxy h.symm
          simp [charLe, hyx, hgt]

theorem charLe_trans {a b c : List Char} (hab : charLe a b = true)
    (hbc : charLe b c = true) : charLe a c = true := by
  induction a generalizing b c with
  | nil => rfl
  | cons x xs ih =>
    cases b with
    | nil => simp [charLe] at hab
    | cons y ys =>
      cases c with
      | nil => simp [charLe] at hbc
      | cons z zs =>
        by_cases hxy : x = y <;> by_cases hyz : y = z
        · subst hxy; subst hyz
          simp only [charLe, if_pos rfl] at hab hbc ⊢
          exact ih hab hbc
        · subst hxy
          simp only [charLe, if_pos rfl] at hab
          simpa [charLe, hyz] using hbc
        · subst hyz
          simpa [charLe, hxy] using hab
        · simp only [charLe, if_neg hxy] at hab
          simp only [charLe, if_neg hyz] at hbc
          have hxz : x < z := lt_trans (of_decide_eq_true hab) (of_decide_eq_true hbc)
          have hxz' : ¬ x = z := ne_of_lt hxz
          simp [charLe, hxz', hxz]

theorem charLe_antisymm {a b : List Char} (hab : charLe a b = true)
    (hba : charLe b a = true) : a = b := by
  induction a generalizing b with
  | nil =>
    cases b with
    | nil => rfl
    | cons y ys => simp [charLe] at hba
  | cons x xs ih =>
    cases b with
    | nil => simp [charLe] at hab
    | cons y ys =>
      by_cases hxy : x = y
      · subst hxy
        simp only [charLe, if_pos rfl] at hab hba
        rw [ih hab hba]
      · have hyx : ¬ y = x := fun h => hxy h.symm
        simp only [charLe, if_neg hxy] at hab
        simp only [charLe, if_neg hyx] at hba
        exact absurd (of_decide_eq_true hab) (lt_asymm (of_decide_eq_true hba))

theorem keyLe_total (a b : String) : keyLe a b = true ∨ keyLe b a = true :=
  charLe_total a.data b.data

theorem keyLe_trans {a b c : String} (hab : keyLe a b = true)
    (hbc : keyLe b c = true) : keyLe a c = true :=
  charLe_trans hab hbc

theorem keyLe_antisymm {a b : String} (hab : keyLe a b = true)
    (hba : keyLe b a = true) : a = b := by
  have h := charLe_antisymm hab hba
  cases a with
  | mk da =>
    cases b with
    | mk db => exact congrArg String.mk h

instance : IsTrans String (fun a b => keyLe a b = true) :=
  ⟨fun _ _ _ => keyLe_trans⟩

instance : IsTotal String (fun a b => keyLe a b = true) :=
  ⟨keyLe_total⟩

instance : IsAntisymm String (fun a b => keyLe a b = true) :=
  ⟨fun _ _ => keyLe_antisymm⟩

/-! ## Markup model

The templating collaborator's element handles (`lxml` in the code):
`get(attr)`, `set(attr, value)`, recursive `iter()` and `to_string`.
Markup strings are represented by their element trees; `elementToString`
is the collaborator's deterministic serialization, used where the code
checksums a markup string. -/

mutual

/-- An element handle of the templating collaborator: tag, attribute list
(in document order) and child elements. -/
inductive Element where
  | mk (tag : String) (attrs : List (String × String)) (children : ElementList)

/-- The children of an element, in document order. -/
inductive ElementList where
  | nil
  | cons (head : Element) (tail : ElementList)

end

/-- `element.get(attr)`: first value for the attribute, if present. -/
def Element.getAttr : Element → String → Option String
  | .mk _ attrs _, k => attrs.lookup k

/-- `element.set(attr, value)`: replace the attribute's value in place, or
append it at the end of the attribute list when absent (lxml behaviour). -/
def Element.setAttr : Element → String → String → Element
  | .mk t attrs cs, k, v =>
    if (attrs.lookup k).isSome then
      .mk t (attrs.map (fun p => if p.1 = k then (k, v) else p)) cs
    else
      .mk t (attrs ++ [(k, v)]) cs

/-- The element's tag. -/
def Element.tag : Element → String
  | .mk t _ _ => t

/-- The element's attribute list. -/
def Element.attrs : Element → List (String × String)
  | .mk _ a _ => a

/-- The element's children. -/
def Element.children : Element → ElementList
  | .mk _ _ cs => cs

mutual

/-- `html_element_to_string` composed with the collaborator's serializer:
a deterministic rendering of the element tree to a markup string. -/
def elementToString : Element → String
  | .mk t attrs cs =>
    "<" ++ t ++ String.join (attrs.map (fun p => " " ++ p.1 ++ "=" ++ p.2)) ++ ">"
      ++ elementListToString cs ++ "</" ++ t ++ ">"

/-- Serialization of a child list, in document order. -/
def elementListToString : ElementList → String
  | .nil => ""
  | .cons c cs => elementToString c ++ elementListToString cs

end

mutual

/-- `element.iter()`: the element followed by all its descendants,
depth-first in document order (lxml `iter` includes the element itself). -/
def Element.iter : Element → List Element
  | .mk t a cs => .mk t a cs :: ElementList.iterList cs

/-- Depth-first traversal of a child list. -/
def ElementList.iterList : ElementList → List Element
  | .nil => []
  | .cons c cs => c.iter ++ ElementList.iterList cs

end

mutual

/-- The body of the `for _child in parent_soup.iter()` loop in
`ComponentResponse.get_data` (response.py lines 163-166): every element in
the tree whose `unicorn:id` equals `child_unicorn_id` gets its
`unicorn:meta` attribute set to `child_meta`; all other elements are
untouched.  Children are traversed regardless of whether their parent
matched, as lxml's recursive `iter` does. -/
def setMetaOnMatches : Element → Option String → String → Element
  | .mk t a cs, child_unicorn_id, child_meta =>
    let e := Element.mk t a (setMetaOnMatchesList cs child_unicorn_id child_meta)
    if (a.lookup "unicorn:id") == child_unicorn_id then
      e.setAttr "unicorn:meta" child_meta
    else
      e

/-- `setMetaOnMatches` over a child list. -/
def setMetaOnMatchesList : ElementList → Option String → String → ElementList
  | .nil, _, _ => .nil
  | .cons c cs, child_unicorn_id, child_meta =>
    .cons (setMetaOnMatches c child_unicorn_id child_meta)
      (setMetaOnMatchesList cs child_unicorn_id child_meta)

end

/-- The child-locate-and-update step of `ComponentResponse.get_data`
(response.py lines 160-166): if the parent markup's root element itself
carries the child's `unicorn:id`, set `unicorn:meta` on the root only;
otherwise walk the whole tree (`parent_soup.iter()`, which starts at the
root, where the id cannot match in this branch) and set `unicorn:meta` on
every element whose `unicorn:id` matches.  When nothing matches this is
the identity. -/
def updateChildMetaInParent (parent_soup : Element) (child_unicorn_id : Option String)
    (child_meta : String) : Element :=
  if parent_soup.getAttr "unicorn:id" == child_unicorn_id then
    parent_soup.setAttr "unicorn:meta" child_meta
  else
    setMetaOnMatches parent_soup child_unicorn_id child_meta

/-! ## Component-tree data model

`UnicornView` as consumed by `ComponentResponse`: identity, errors, pending
calls, the `force_render` flag, the cached last rendered markup and content
hash, and the owned children.  The values the ancestor walk obtains from
external collaborators for an ancestor — `get_frontend_context_variables()`
(after `loads`) and `render()` — are carried on the node as the
collaborator-supplied inputs they are.  The upward `parent` links are
supplied to `get_data` separately as the (finite, acyclic) ancestor chain,
nearest parent first. -/

/-- A pending client-bound call: a dictionary with `fn` and `args` keys. -/
structure Call where
  fn : String
  args : List String

mutual

/-- A component node (`UnicornView`) as read by `ComponentResponse`. -/
inductive Component where
  | mk (component_id : String)
       (errors : List (String × String))
       (calls : List Call)
       (force_render : Bool)
       (last_rendered_dom : Element)
       (content_hash : String)
       (frontend_context_variables : List (String × String))
       (render_result : Element)
       (children : ComponentList)

/-- The owned children of a component, in declaration order. -/
inductive ComponentList where
  | nil
  | cons (head : Component) (tail : ComponentList)

end

/-- `component_id`. -/
def Component.component_id : Component → String
  | .mk i _ _ _ _ _ _ _ _ => i

/-- `errors`. -/
def Component.errors : Component → List (String × String)
  | .mk _ e _ _ _ _ _ _ _ => e

/-- `calls`: the node's own pending calls. -/
def Component.calls : Component → List Call
  | .mk _ _ c _ _ _ _ _ _ => c

/-- `force_render`. -/
def Component.force_render : Component → Bool
  | .mk _ _ _ f _ _ _ _ _ => f

/-- `last_rendered_dom`: the cached last rendered markup. -/
def Component.last_rendered_dom : Component → Element
  | .mk _ _ _ _ d _ _ _ _ => d

/-- `getattr(component, "_content_hash", "")`: the optional precomputed
content hash, the empty string when absent. -/
def Component.content_hash : Component → String
  | .mk _ _ _ _ _ h _ _ _ => h

/-- `loads(component.get_frontend_context_variables())`: the node's
frontend-visible data snapshot, as returned by the serialization
collaborator during the ancestor walk. -/
def Component.frontend_context_variables : Component → List (String × String)
  | .mk _ _ _ _ _ _ v _ _ => v

/-- `component.render()`: the markup the templating collaborator returns
when the ancestor walk re-renders this node. -/
def Component.render_result : Component → Element
  | .mk _ _ _ _ _ _ _ r _ => r

/-- `children`. -/
def Component.children : Component → ComponentList
  | .mk _ _ _ _ _ _ _ _ cs => cs

mutual

/-- `ComponentResponse._collect_calls_from_component` (response.py lines
40-56): for each child in order, the child's own calls followed by the
calls of the child's descendants, recursively. -/
def collect_calls_from_component : Component → List Call
  | .mk _ _ _ _ _ _ _ _ children => collect_calls_from_children children

/-- The `for child in component.children` loop of
`_collect_calls_from_component`. -/
def collect_calls_from_children : ComponentList → List Call
  | .nil => []
  | .cons c cs => c.calls ++ collect_calls_from_component c ++ collect_calls_from_children cs

end

/-- `ComponentResponse._collect_all_calls` (response.py lines 26-38): the
component's own calls first, then all descendants' calls depth-first. -/
def collect_all_calls (component : Component) : List Call :=
  component.calls ++ collect_calls_from_component component

/-! ## Checksums and serialization (modelled collaborators) -/

/-- Modelled from the spec: `generate_checksum` (django_unicorn.utils, not
under src/) — "deterministic, order-insensitive for mapping-typed input
(achieved by sorting keys before serialization), stable across processes".
A concrete deterministic string hash standing in for the real digest. -/
def checksumString (s : String) : String :=
  toString (s.data.foldl (fun h c => (h * 31 + c.toNat) % 1000000007) 7)

/-- Modelled from the spec: the serialization collaborator's rendering of a
data mapping, in mapping order, used by `generate_checksum` on dicts. -/
def serializeData (d : List (String × String)) : String :=
  String.join (d.map (fun p => p.1 ++ "=" ++ p.2 ++ "&"))

/-- Modelled from the spec: Python's `str()` of a dict, in mapping order,
as fed to `generate_checksum(str(parent_frontend_context_variables))`. -/
def pyDictStr (d : List (String × String)) : String :=
  "dict(" ++ String.join (d.map (fun p => p.1 ++ ": " ++ p.2 ++ ", ")) ++ ")"

/-- Modelled from the spec: `generate_checksum` applied to a data mapping. -/
def generate_checksum (d : List (String × String)) : String :=
  checksumString (serializeData d)

/-! ## Request envelope, return-value wrapper -/

/-- `ComponentRequest` as consumed by `ComponentResponse.get_data`:
component id, the data mapping as sent by the client (insertion order
preserved), the client-supplied content hash, and the epoch counter. -/
structure ComponentRequest where
  id : String
  data : List (String × String)
  hash : String
  epoch : Nat

/-- A Python value as carried by the return-value wrapper, with Python's
truthiness. -/
inductive PyValue where
  | pynone
  | pystr (s : String)
  | pyint (n : Int)
  | pybool (b : Bool)
  | pylist (l : List PyValue)

/-- Python truthiness of a `PyValue`. -/
def PyValue.truthy : PyValue → Bool
  | .pynone => false
  | .pystr s => !s.isEmpty
  | .pyint n => decide (n ≠ 0)
  | .pybool b => b
  | .pylist l => !l.isEmpty

/-- The return-value wrapper (`Return` in the views layer, not under src/):
a wrapped value, an optional redirect target, an optional poll directive. -/
structure ReturnData where
  value : PyValue
  redirect : Option String
  poll : Option String

/-- Modelled from the spec: `return_data.get_data()`, the wrapper's payload
representation attached under the response's `return` key. -/
def ReturnData.get_data (rd : ReturnData) : PyValue := rd.value

/-- `RenderNotModifiedError` (django_unicorn.errors): the NotModified
signal raised by `get_data`. -/
inductive RenderNotModifiedError where
  | mk

/-! ## Request-data normalization (response.py lines 59-63) -/

/-- Python `sorted(self.component_request.data)`: the mapping's keys in
lexicographic order. -/
def sortedKeys (d : List (String × String)) : List String :=
  List.insertionSort (fun a b => keyLe a b = true) (d.map Prod.fst)

/-- `{key: data[key] for key in sorted(data)}` (response.py lines 61-63):
the data mapping rebuilt with its keys in sorted order. -/
def sortRequestData (d : List (String × String)) : List (String × String) :=
  (sortedKeys d).filterMap (fun k => (d.lookup k).map (fun v => (k, v)))

/-! ## Response payload shape -/

/-- One level of the nested `parent` payload chain: the dictionary built
for a `force_render` ancestor (response.py lines 138-141 and 184-191).
`dom`, `data` and `errors` are only attached when no partials were
supplied. -/
structure ParentEntry where
  id : String
  meta : String
  dom : Option Element
  data : Option (List (String × String))
  errors : Option (List (String × String))

/-- The nested `parent` chain: each level optionally holds the next
ancestor's level under its own `parent` key. -/
inductive ParentChain where
  | mk (entry : ParentEntry) (parent : Option ParentChain)

/-- The entry at this level of the chain. -/
def ParentChain.entry : ParentChain → ParentEntry
  | .mk e _ => e

/-- The next level up of the chain, if any. -/
def ParentChain.parent : ParentChain → Option ParentChain
  | .mk _ p => p

/-- The outbound response payload built by `ComponentResponse.get_data`.
`dom = none` models the `dom` key being absent, `dom = some none` models
`result["dom"] = None`, and `dom = some (some e)` models the key holding
markup `e`.  `ret` is the `return` key (`return` is reserved in Lean). -/
structure Payload where
  id : String
  data : List (String × String)
  errors : List (String × String)
  calls : List Call
  meta : String
  dom : Option (Option Element)
  partials : Option (List String)
  ret : Option PyValue
  redirect : Option String
  poll : Option String
  parent : Option ParentChain

/-- Chain a list of parent entries into the nested `parent` structure the
walk produces: `result["parent"] = e₀`, `e₀["parent"] = e₁`, … -/
def nestEntries : List ParentEntry → Option ParentChain
  | [] => none
  | e :: rest => some (.mk e (nestEntries rest))

/-! ## The response assembler (response.py lines 58-204) -/

/-- Lines 81-84: the node's content checksum — the cached `_content_hash`
when present (non-empty), otherwise `generate_checksum` of the last
rendered markup string. -/
def componentContentHash (component : Component) : String :=
  if component.content_hash ≠ "" then component.content_hash
  else checksumString (elementToString component.last_rendered_dom)

/-- Line 88: `not self.return_data or not self.return_data.value` — the
wrapper is absent or its wrapped value is falsy. -/
def returnValueFalsy : Option ReturnData → Bool
  | none => true
  | some rd => !rd.value.truthy

/-- One iteration of the ancestor walk for a `force_render` ancestor
(response.py lines 133-191): the ancestor's frontend snapshot and its
checksum, and — when no partials were supplied — the re-rendered ancestor
markup with the child's stamped `unicorn:meta` copied onto the matching
element, the ancestor's content checksum computed on that markup, the
three-part meta string, and finally the ancestor's own data-checksum stamp
on its root element. -/
def buildParentEntry (epoch : Nat) (partials : List String)
    (child_unicorn_id : Option String) (child_meta : String)
    (parent_component : Component) : ParentEntry :=
  let parent_frontend_context_variables := parent_component.frontend_context_variables
  let parent_checksum := checksumString (pyDictStr parent_frontend_context_variables)
  if partials.isEmpty then
    let parent_dom := parent_component.render_result
    let parent_soup := updateChildMetaInParent parent_dom child_unicorn_id child_meta
    let parent_dom_hash :=
      if parent_component.content_hash ≠ "" then parent_component.content_hash
      else checksumString (elementToString parent_soup)
    let parent_meta := parent_checksum ++ ":" ++ parent_dom_hash ++ ":" ++ toString epoch
    { id := parent_component.component_id,
      meta := parent_meta,
      dom := some (parent_soup.setAttr "unicorn:meta" parent_checksum),
      data := some parent_frontend_context_variables,
      errors := some parent_component.errors }
  else
    { id := parent_component.component_id,
      meta := parent_checksum ++ "::" ++ toString epoch,
      dom := none, data := none, errors := none }

/-- The `while parent_component:` loop (response.py lines 132-202): walk
the ancestor chain upward; each `force_render` ancestor contributes one
parent entry; other ancestors are skipped and the walk advances. -/
def ancestorEntries (epoch : Nat) (partials : List String)
    (child_unicorn_id : Option String) (child_meta : String) :
    List Component → List ParentEntry
  | [] => []
  | parent_component :: rest =>
    if parent_component.force_render then
      buildParentEntry epoch partials child_unicorn_id child_meta parent_component
        :: ancestorEntries epoch partials child_unicorn_id child_meta rest
    else
      ancestorEntries epoch partials child_unicorn_id child_meta rest

/-- Whether any ancestor in the chain has `force_render` set: exactly when
the walk executes `result["dom"] = None` (response.py line 171) at least
once (given no partials). -/
def anyForceRender : List Component → Bool
  | [] => false
  | parent_component :: rest => parent_component.force_render || anyForceRender rest

/-- Lines 60-63 of response.py: `if self.component_request.data:` (a
non-empty mapping is truthy) the request's data mapping is replaced, in
place, by the rebuilt mapping with keys in sorted order. -/
def normalizeRequest (component_request : ComponentRequest) : ComponentRequest :=
  if component_request.data.isEmpty then component_request
  else { component_request with data := sortRequestData component_request.data }

/-- `ComponentResponse.get_data` (response.py lines 58-204).  Inputs: the
acted-upon component, its ancestor chain (nearest parent first — the
in-memory `parent` links), the request envelope, the return-value wrapper
and the partial fragments.  Returns the outcome (`NotModified` or the
payload) together with the request envelope as mutated by the in-place
data sort of lines 60-63.  The internal `render_not_modified` flag is not
modelled: its only use (lines 193-196) is an empty TODO block. -/
def get_data (component : Component) (ancestors : List Component)
    (component_request : ComponentRequest) (return_data : Option ReturnData)
    (partials : List String) :
    Except RenderNotModifiedError Payload × ComponentRequest :=
  let req := normalizeRequest component_request
  let data_checksum := generate_checksum req.data
  if !partials.isEmpty then
    (.ok { id := req.id,
           data := req.data,
           errors := component.errors,
           calls := collect_all_calls component,
           meta := data_checksum ++ "::" ++ toString req.epoch,
           dom := none,
           partials := some partials,
           ret := return_data.map ReturnData.get_data,
           redirect := return_data.bind ReturnData.redirect,
           poll := return_data.bind ReturnData.poll,
           parent := nestEntries (ancestorEntries req.epoch partials none "" ancestors) },
     req)
  else
    let rendered_component_hash := componentContentHash component
    if req.hash == rendered_component_hash
        && returnValueFalsy return_data
        && (collect_all_calls component).isEmpty
        && ancestors.isEmpty
        && component.force_render == false then
      (.error .mk, req)
    else
      let root_element := component.last_rendered_dom.setAttr "unicorn:meta" data_checksum
      let child_unicorn_id := root_element.getAttr "unicorn:id"
      let child_meta := (root_element.getAttr "unicorn:meta").getD ""
      (.ok { id := req.id,
             data := req.data,
             errors := component.errors,
             calls := collect_all_calls component,
             meta := data_checksum ++ ":" ++ rendered_component_hash ++ ":" ++ toString req.epoch,
             dom := if anyForceRender ancestors then some none else some (some root_element),
             partials := none,
             ret := return_data.map ReturnData.get_data,
             redirect := return_data.bind ReturnData.redirect,
             poll := return_data.bind ReturnData.poll,
             parent :=
               nestEntries (ancestorEntries req.epoch partials child_unicorn_id child_meta ancestors) },
       req)

/-! ## Helper views on a response -/

/-- Whether the build succeeded (no NotModified signal). -/
def responseIsOk (r : Except RenderNotModifiedError Payload × ComponentRequest) : Bool :=
  match r.1 with
  | .ok _ => true
  | .error _ => false

/-- The payload of a successful build. -/
def responsePayload (r : Except RenderNotModifiedError Payload × ComponentRequest) :
    Option Payload :=
  match r.1 with
  | .ok p => some p
  | .error _ => none

/-- The `meta` field of a successful build's payload. -/
def responseMeta (r : Except RenderNotModifiedError Payload × ComponentRequest) :
    Option String :=
  (responsePayload r).map Payload.meta

/-! ## The call-collection order, as the spec words it

"Order: the node's own pending calls first, then its children's calls
recursively, depth-first, child order preserved, each child's own calls
before its descendants' calls." (§4.2) — a second definition written from
those words, to be compared with the code's `collect_all_calls`. -/

mutual

/-- The spec's call order for a node: own calls, then the children's
recursively. -/
def specCallOrder : Component → List Call
  | .mk _ _ cs _ _ _ _ _ children => cs ++ specCallOrderList children

/-- The spec's call order over a child list, child order preserved. -/
def specCallOrderList : ComponentList → List Call
  | .nil => []
  | .cons c rest => specCallOrder c ++ specCallOrderList rest

end

mutual

theorem collect_component_eq_specList (c : Component) :
    collect_calls_from_component c = specCallOrderList c.children :=
  match c with
  | .mk _ _ _ _ _ _ _ _ children => by
    simpa [collect_calls_from_component, Component.children] using
      collect_children_eq_specList children

theorem collect_children_eq_specList (l : ComponentList) :
    collect_calls_from_children l = specCallOrderList l :=
  match l with
  | .nil => rfl
  | .cons c cs => by
    have h1 := collect_component_eq_specList c
    have h2 := collect_children_eq_specList cs
    cases c with
    | mk i e cl f d h v r ch =>
      simp only [collect_calls_from_children, specCallOrderList, h1, h2, specCallOrder,
        Component.calls, Component.children, List.append_assoc]

end

theorem collect_all_calls_eq_spec (c : Component) : collect_all_calls c = specCallOrder c := by
  cases c with
  | mk i e cl f d h v r ch =>
    simp only [collect_all_calls, specCallOrder, Component.calls,
      collect_component_eq_specList, Component.children]

/-- Claim C2: for every component tree, the flattened call list in the
response equals the root's own pending calls followed by its descendants'
calls depth-first, child order preserved, each child's own calls before
its descendants' (the spec's §4.2 order); in particular, for a tree
root→child A→child A1 and root→child B in that structural order, the
calls appear in exactly the order root, A, A1, B. -/
theorem c2_collect_calls_depth_first :
    (∀ c : Component, collect_all_calls c = specCallOrder c) ∧
    (∀ (rootCalls aCalls a1Calls bCalls : List Call)
       (i₁ i₂ i₃ i₄ : String) (e₁ e₂ e₃ e₄ : List (String × String))
       (f₁ f₂ f₃ f₄ : Bool) (d₁ d₂ d₃ d₄ : Element) (h₁ h₂ h₃ h₄ : String)
       (v₁ v₂ v₃ v₄ : List (String × String)) (r₁ r₂ r₃ r₄ : Element),
      collect_all_calls
        (.mk i₁ e₁ rootCalls f₁ d₁ h₁ v₁ r₁
          (.cons
            (.mk i₂ e₂ aCalls f₂ d₂ h₂ v₂ r₂
              (.cons (.mk i₃ e₃ a1Calls f₃ d₃ h₃ v₃ r₃ .nil) .nil))
            (.cons (.mk i₄ e₄ bCalls f₄ d₄ h₄ v₄ r₄ .nil) .nil))) =
        rootCalls ++ aCalls ++ a1Calls ++ bCalls) := by
  constructor
  · exact collect_all_calls_eq_spec
  · intro rootCalls aCalls a1Calls bCalls _ _ _ _ _ _ _ _ _ _ _ _ _ _ _ _ _ _ _ _ _ _ _ _ _ _ _ _
    simp [collect_all_calls, collect_calls_from_component, collect_calls_from_children,
      Component.calls, List.append_assoc]

theorem normalizeRequest_id (r : ComponentRequest) : (normalizeRequest r).id = r.id := by
  unfold normalizeRequest; split <;> rfl

theorem normalizeRequest_hash (r : ComponentRequest) : (normalizeRequest r).hash = r.hash := by
  unfold normalizeRequest; split <;> rfl

theorem normalizeRequest_epoch (r : ComponentRequest) : (normalizeRequest r).epoch = r.epoch := by
  unfold normalizeRequest; split <;> rfl

/-- Claim C1: with no partial fragments supplied, building the response
fails with NotModified iff the client hash equals the node's content
checksum (cached `_content_hash` if present, else the checksum of the last
rendered markup), the return-value wrapper is absent or its value falsy,
no calls are pending on the node or its descendants, the node has no
parent, and `force_render` is false; and when the first three conditions
hold but the node has a parent or `force_render` is true, the build
succeeds with a payload. -/
theorem c1_not_modified_decision (component : Component) (ancestors : List Component)
    (component_request : ComponentRequest) (return_data : Option ReturnData) :
    ((get_data component ancestors component_request return_data []).1 =
        .error .mk ↔
      (component_request.hash = componentContentHash component ∧
       returnValueFalsy return_data = true ∧
       collect_all_calls component = [] ∧
       ancestors = [] ∧
       component.force_render = false)) ∧
    (component_request.hash = componentContentHash component →
     returnValueFalsy return_data = true →
     collect_all_calls component = [] →
     (ancestors ≠ [] ∨ component.force_render = true) →
     responseIsOk (get_data component ancestors component_request return_data []) = true) := by
  have hh := normalizeRequest_hash component_request
  by_cases hcond :
      ((normalizeRequest component_request).hash == componentContentHash component
        && returnValueFalsy return_data
        && (collect_all_calls component).isEmpty
        && ancestors.isEmpty
        && (component.force_render == false)) = true
  · have hprops := hcond
    simp only [Bool.and_eq_true, beq_iff_eq, List.isEmpty_iff] at hprops
    obtain ⟨⟨⟨⟨h1, h2⟩, h3⟩, h4⟩, h5⟩ := hprops
    constructor
    · simp only [get_data, List.isEmpty_nil, Bool.not_true, Bool.false_eq_true, if_false,
        hcond, if_true]
      exact ⟨fun _ => ⟨hh ▸ h1, h2, h3, h4, h5⟩, fun _ => trivial⟩
    · intro _ _ _ hor
      rcases hor with hne | hfr
      · exact absurd h4 hne
      · rw [h5] at hfr; exact absurd hfr (by simp)
  · constructor
    · simp only [get_data, List.isEmpty_nil, Bool.not_true, Bool.false_eq_true, if_false,
        hcond, if_false]
      constructor
      · intro h; exact absurd h (by simp)
      · intro ⟨h1, h2, h3, h4, h5⟩
        exact absurd (by
          simp only [Bool.and_eq_true, beq_iff_eq, List.isEmpty_iff]
          exact ⟨⟨⟨⟨hh.trans h1, h2⟩, h3⟩, h4⟩, h5⟩) hcond
    · intro _ _ _ _
      simp only [get_data, responseIsOk, List.isEmpty_nil, Bool.not_true, Bool.false_eq_true,
        if_false, hcond]

/-! ## Properties of the request-data sort -/

theorem lookup_eq_of_perm {α β : Type} [BEq α] [LawfulBEq α] (k : α) :
    ∀ {d d' : List (α × β)}, d.Perm d' → (d.map Prod.fst).Nodup →
      d.lookup k = d'.lookup k := by
  intro d d' h
  induction h with
  | nil => intro _; rfl
  | cons x l ih =>
    intro hnd
    simp only [List.map_cons, List.nodup_cons] at hnd
    by_cases hk : k == x.1
    · cases x with
      | mk a b => simp [List.lookup, hk]
    · cases x with
      | mk a b =>
        simp only [List.lookup, hk]
        exact ih hnd.2
  | swap x y l =>
    intro hnd
    simp only [List.map_cons, List.nodup_cons, List.mem_cons] at hnd
    by_cases hky : k == y.1 <;> by_cases hkx : k == x.1
    · exact absurd (eq_of_beq hky ▸ eq_of_beq hkx : y.1 = x.1).symm
        (fun hc => hnd.1 (Or.inl hc.symm))
    · cases x with
      | mk a b =>
        cases y with
        | mk a' b' => simp [List.lookup, hky, hkx]
    · cases x with
      | mk a b =>
        cases y with
        | mk a' b' => simp [List.lookup, hky, hkx]
    · cases x with
      | mk a b =>
        cases y with
        | mk a' b' => simp [List.lookup, hky, hkx]
  | trans h1 h2 ih1 ih2 =>
    intro hnd
    refine (ih1 hnd).trans (ih2 ?_)
    exact ((h1.map Prod.fst).nodup_iff).mp hnd

theorem sortedKeys_eq_of_perm {d d' : List (String × String)} (h : d.Perm d') :
    sortedKeys d = sortedKeys d' := by
  have hperm : (d.map Prod.fst).Perm (d'.map Prod.fst) := h.map Prod.fst
  have h1 := List.sorted_insertionSort (fun a b => keyLe a b = true) (d.map Prod.fst)
  have h2 := List.sorted_insertionSort (fun a b => keyLe a b = true) (d'.map Prod.fst)
  have hp : (List.insertionSort (fun a b => keyLe a b = true) (d.map Prod.fst)).Perm
      (List.insertionSort (fun a b => keyLe a b = true) (d'.map Prod.fst)) :=
    ((List.perm_insertionSort _ _).trans hperm).trans (List.perm_insertionSort _ _).symm
  exact List.eq_of_perm_of_sorted hp h1 h2

theorem filterMap_congr_lookup {β : Type} (l : List String)
    (f g : String → Option β) (h : ∀ a, f a = g a) :
    l.filterMap f = l.filterMap g := by
  induction l with
  | nil => rfl
  | cons x xs ih => simp only [List.filterMap_cons, h x, ih]

/-- The in-place sort of the request data is insensitive to the mapping's
insertion order (for well-formed mappings: no duplicate keys). -/
theorem sortRequestData_eq_of_perm {d d' : List (String × String)} (h : d.Perm d')
    (hnd : (d.map Prod.fst).Nodup) : sortRequestData d = sortRequestData d' := by
  unfold sortRequestData
  rw [sortedKeys_eq_of_perm h]
  exact filterMap_congr_lookup _ _ _
    (fun a => by rw [lookup_eq_of_perm a h hnd])

theorem keys_sortRequestData_sublist (d : List (String × String)) :
    ∀ l : List String,
      ((l.filterMap (fun k => (d.lookup k).map (fun v => (k, v)))).map Prod.fst).Sublist l := by
  intro l
  induction l with
  | nil => simp
  | cons x xs ih =>
    simp only [List.filterMap_cons]
    cases hx : (d.lookup x) with
    | none => exact ih.cons x
    | some v => simpa using ih.cons₂ x

/-- The rebuilt request data's keys are in sorted (lexicographic) order. -/
theorem sortRequestData_keys_sorted (d : List (String × String)) :
    ((sortRequestData d).map Prod.fst).Pairwise (fun a b => keyLe a b = true) := by
  have hs := List.sorted_insertionSort (fun a b => keyLe a b = true) (d.map Prod.fst)
  exact List.Pairwise.sublist (keys_sortRequestData_sublist d (sortedKeys d)) hs

/-! ## Concrete fixtures used by the witnesses and counterexamples -/

/-- A markup tree `<div unicorn:id=c1></div>`. -/
def w1dom : Element := .mk "div" [("unicorn:id", "c1")] .nil

/-- A quiescent child component with a cached content hash. -/
def w1child : Component := .mk "c1" [] [] false w1dom "hash0" [] w1dom .nil

/-- A parent component with `force_render` set. -/
def w1parent : Component :=
  .mk "p1" [] [] true w1dom "" [("page", "1")]
    (.mk "section" [("unicorn:id", "p1")] (.cons w1dom .nil)) .nil

/-- A request whose client hash matches `w1child`'s cached content hash. -/
def w1req : ComponentRequest := { id := "c1", data := [("a", "1")], hash := "hash0", epoch := 3 }

/-- Witness for C1: for the quiescent child under a live parent, the three
not-modified conditions hold and the build still succeeds. -/
theorem c1_witness_not_modified_decision :
    responseIsOk (get_data w1child [w1parent] w1req none []) = true :=
  (c1_not_modified_decision w1child [w1parent] w1req none).2 rfl rfl rfl
    (Or.inl (List.cons_ne_nil _ _))

theorem get_data_request (component : Component) (ancestors : List Component)
    (component_request : ComponentRequest) (return_data : Option ReturnData)
    (partials : List String) :
    (get_data component ancestors component_request return_data partials).2 =
      normalizeRequest component_request := by
  unfold get_data
  dsimp only
  split
  · rfl
  · split <;> rfl

/-- Claim C10: building the response mutates the request envelope in
place — when its data mapping is non-empty its `data` field is replaced by
the rebuilt mapping with keys in sorted order, while `id`, `hash` and
`epoch` are unchanged by the entire build. -/
theorem c10_request_mutated_in_place (component : Component) (ancestors : List Component)
    (component_request : ComponentRequest) (return_data : Option ReturnData)
    (partials : List String) :
    (get_data component ancestors component_request return_data partials).2.id =
        component_request.id ∧
    (get_data component ancestors component_request return_data partials).2.hash =
        component_request.hash ∧
    (get_data component ancestors component_request return_data partials).2.epoch =
        component_request.epoch ∧
    (component_request.data ≠ [] →
      (get_data component ancestors component_request return_data partials).2.data =
          sortRequestData component_request.data ∧
      ((get_data component ancestors component_request return_data partials).2.data.map
          Prod.fst).Pairwise (fun a b => keyLe a b = true)) := by
  rw [get_data_request]
  refine ⟨normalizeRequest_id _, normalizeRequest_hash _, normalizeRequest_epoch _, ?_⟩
  intro hne
  have hfalse : ¬ component_request.data.isEmpty = true := by
    simpa [List.isEmpty_iff] using hne
  unfold normalizeRequest
  rw [if_neg hfalse]
  exact ⟨rfl, sortRequestData_keys_sorted _⟩

/-- Witness for C10: on a request with non-empty data, the returned
envelope's data is the sorted rebuild. -/
theorem c10_witness_request_mutated_in_place :
    (get_data w1child [w1parent] w1req none []).2.data = sortRequestData w1req.data ∧
    ((get_data w1child [w1parent] w1req none []).2.data.map Prod.fst).Pairwise
      (fun a b => keyLe a b = true) :=
  (c10_request_mutated_in_place w1child [w1parent] w1req none []).2.2.2
    (List.cons_ne_nil _ _)

theorem normalizeRequest_keys_sorted (r : ComponentRequest) :
    ((normalizeRequest r).data.map Prod.fst).Pairwise (fun a b => keyLe a b = true) := by
  unfold normalizeRequest
  split
  · next hemp =>
    rw [List.isEmpty_iff] at hemp
    simp [hemp]
  · exact sortRequestData_keys_sorted _

theorem normalizeRequest_eq_of_perm {d1 d2 : List (String × String)}
    (i h : String) (e : Nat) (hperm : d1.Perm d2) (hnd : (d1.map Prod.fst).Nodup) :
    normalizeRequest ⟨i, d1, h, e⟩ = normalizeRequest ⟨i, d2, h, e⟩ := by
  unfold normalizeRequest
  by_cases hemp : d1 = []
  · subst hemp
    have : d2 = [] := hperm.nil_eq.symm
    subst this
    rfl
  · have h1 : ¬ (d1.isEmpty = true) := by simpa [List.isEmpty_iff] using hemp
    have hd2 : d2 ≠ [] := by
      intro hc
      subst hc
      exact hemp hperm.eq_nil
    have h2 : ¬ (d2.isEmpty = true) := by simpa [List.isEmpty_iff] using hd2
    rw [if_neg h1, if_neg h2, sortRequestData_eq_of_perm hperm hnd]

/-- Claim C7: two request envelopes whose data mappings hold the same
key-value pairs in different insertion orders produce identical build
results — in particular the echoed data (keys in lexicographic order) and
the data checksum carried in `meta` coincide. -/
theorem c7_checksum_order_insensitive (component : Component) (ancestors : List Component)
    (i h : String) (e : Nat) (d1 d2 : List (String × String))
    (return_data : Option ReturnData) (partials : List String)
    (hperm : d1.Perm d2) (hnd : (d1.map Prod.fst).Nodup) :
    get_data component ancestors ⟨i, d1, h, e⟩ return_data partials =
      get_data component ancestors ⟨i, d2, h, e⟩ return_data partials ∧
    ((get_data component ancestors ⟨i, d1, h, e⟩ return_data partials).2.data.map
        Prod.fst).Pairwise (fun a b => keyLe a b = true) ∧
    responseMeta (get_data component ancestors ⟨i, d1, h, e⟩ return_data partials) =
      responseMeta (get_data component ancestors ⟨i, d2, h, e⟩ return_data partials) := by
  have hreq := normalizeRequest_eq_of_perm i h e hperm hnd
  have hmain : get_data component ancestors ⟨i, d1, h, e⟩ return_data partials =
      get_data component ancestors ⟨i, d2, h, e⟩ return_data partials := by
    unfold get_data
    rw [hreq]
  refine ⟨hmain, ?_, by rw [hmain]⟩
  rw [get_data_request]
  exact normalizeRequest_keys_sorted _

/-- Witness for C7: the two insertion orders of `{a: 1, b: 2}` yield the
same response meta. -/
theorem c7_witness_checksum_order_insensitive :
    responseMeta (get_data w1child [w1parent]
        ⟨"c1", [("b", "2"), ("a", "1")], "hash0", 3⟩ none []) =
      responseMeta (get_data w1child [w1parent]
        ⟨"c1", [("a", "1"), ("b", "2")], "hash0", 3⟩ none []) :=
  (c7_checksum_order_insensitive w1child [w1parent] "c1" "hash0" 3
    [("b", "2"), ("a", "1")] [("a", "1"), ("b", "2")] none []
    (List.Perm.swap ("a", "1") ("b", "2") []) (by decide)).2.2

/-- Claim C8: the ancestor walk terminates exactly when no `parent` link
remains (on the empty chain it produces nothing and stops), visits every
ancestor, and an ancestor with `force_render = false` contributes no
parent entry while the walk still advances past it — the walk over any
finite chain is exactly the force-rendered ancestors, in order, mapped to
their entries; in particular a `force_render` ancestor above a
non-`force_render` ancestor still gets its entry. -/
theorem c8_ancestor_walk_filter (epoch : Nat) (partials : List String)
    (child_unicorn_id : Option String) (child_meta : String) :
    (ancestorEntries epoch partials child_unicorn_id child_meta [] = []) ∧
    (∀ ancestors : List Component,
      ancestorEntries epoch partials child_unicorn_id child_meta ancestors =
        (ancestors.filter Component.force_render).map
          (buildParentEntry epoch partials child_unicorn_id child_meta)) ∧
    (∀ p1 p2 : Component, p1.force_render = false → p2.force_render = true →
      ancestorEntries epoch partials child_unicorn_id child_meta [p1, p2] =
        [buildParentEntry epoch partials child_unicorn_id child_meta p2]) := by
  have hmain : ∀ ancestors : List Component,
      ancestorEntries epoch partials child_unicorn_id child_meta ancestors =
        (ancestors.filter Component.force_render).map
          (buildParentEntry epoch partials child_unicorn_id child_meta) := by
    intro ancestors
    induction ancestors with
    | nil => rfl
    | cons pc rest ih =>
      by_cases hfr : pc.force_render = true
      · simp [ancestorEntries, List.filter_cons, hfr, ih]
      · simp only [Bool.not_eq_true] at hfr
        simp [ancestorEntries, List.filter_cons, hfr, ih]
  refine ⟨rfl, hmain, fun p1 p2 h1 h2 => ?_⟩
  rw [hmain [p1, p2]]
  simp [List.filter_cons, h1, h2]

/-- A parent component with `force_render` left false. -/
def w8quiet : Component :=
  .mk "q1" [] [] false w1dom "" [("page", "2")]
    (.mk "section" [("unicorn:id", "q1")] (.cons w1dom .nil)) .nil

/-- Witness for C8: a force-rendered grandparent above a quiet parent
still contributes its entry, and only its entry. -/
theorem c8_witness_ancestor_walk_filter :
    ancestorEntries 3 [] (some "c1") "m" [w8quiet, w1parent] =
      [buildParentEntry 3 [] (some "c1") "m" w1parent] :=
  (c8_ancestor_walk_filter 3 [] (some "c1") "m").2.2 w8quiet w1parent rfl rfl

/-! ## The merge step tolerating a missing match (C6) -/

theorem self_mem_iter (e : Element) : e ∈ e.iter := by
  cases e with
  | mk t a cs => simp [Element.iter]

mutual

theorem setMetaOnMatches_no_match (e : Element) (child_unicorn_id : Option String)
    (child_meta : String)
    (h : ∀ x ∈ e.iter, ¬ x.getAttr "unicorn:id" = child_unicorn_id) :
    setMetaOnMatches e child_unicorn_id child_meta = e :=
  match e with
  | .mk t a cs => by
    have hroot : ¬ (Element.mk t a cs).getAttr "unicorn:id" = child_unicorn_id :=
      h _ (self_mem_iter _)
    have hroot' : ((a.lookup "unicorn:id") == child_unicorn_id) = false := by
      rw [beq_eq_false_iff_ne]
      simpa [Element.getAttr] using hroot
    have hrest : ∀ x ∈ ElementList.iterList cs, ¬ x.getAttr "unicorn:id" = child_unicorn_id := by
      intro x hx
      exact h x (by simp [Element.iter]; exact Or.inr hx)
    simp only [setMetaOnMatches, hroot', Bool.false_eq_true, if_false]
    rw [setMetaOnMatchesList_no_match cs child_unicorn_id child_meta hrest]

theorem setMetaOnMatchesList_no_match (l : ElementList) (child_unicorn_id : Option String)
    (child_meta : String)
    (h : ∀ x ∈ ElementList.iterList l, ¬ x.getAttr "unicorn:id" = child_unicorn_id) :
    setMetaOnMatchesList l child_unicorn_id child_meta = l :=
  match l with
  | .nil => rfl
  | .cons c cs => by
    have hc : ∀ x ∈ c.iter, ¬ x.getAttr "unicorn:id" = child_unicorn_id := by
      intro x hx
      exact h x (by simp [ElementList.iterList]; exact Or.inl hx)
    have hcs : ∀ x ∈ ElementList.iterList cs, ¬ x.getAttr "unicorn:id" = child_unicorn_id := by
      intro x hx
      exact h x (by simp [ElementList.iterList]; exact Or.inr hx)
    simp only [setMetaOnMatchesList]
    rw [setMetaOnMatches_no_match c child_unicorn_id child_meta hc,
      setMetaOnMatchesList_no_match cs child_unicorn_id child_meta hcs]

end

/-- When no element of the parent markup (root included) carries the
child's identifier, the locate-and-update step leaves the markup
untouched. -/
theorem updateChildMetaInParent_no_match (parent_soup : Element)
    (child_unicorn_id : Option String) (child_meta : String)
    (h : ∀ x ∈ parent_soup.iter, ¬ x.getAttr "unicorn:id" = child_unicorn_id) :
    updateChildMetaInParent parent_soup child_unicorn_id child_meta = parent_soup := by
  have hroot' : (parent_soup.getAttr "unicorn:id" == child_unicorn_id) = false := by
    rw [beq_eq_false_iff_ne]
    exact h _ (self_mem_iter _)
  unfold updateChildMetaInParent
  rw [hroot']
  simp only [Bool.false_eq_true, if_false]
  exact setMetaOnMatches_no_match _ _ _ h

/-- The data checksum `get_data` computes for a request (line 65), after
the in-place sort. -/
def requestDataChecksum (component_request : ComponentRequest) : String :=
  generate_checksum (normalizeRequest component_request).data

/-- The `unicorn:id` of the response's stamped root element — the
identifier the ancestor-merge step searches for (lines 97-98 and 154). -/
def responseChildUid (component : Component) (component_request : ComponentRequest) :
    Option String :=
  (component.last_rendered_dom.setAttr "unicorn:meta"
    (requestDataChecksum component_request)).getAttr "unicorn:id"

/-- The data-checksum stamp an ancestor's entry carries (line 136):
`generate_checksum(str(parent_frontend_context_variables))`. -/
def parentDataChecksum (parent_component : Component) : String :=
  checksumString (pyDictStr parent_component.frontend_context_variables)

/-- The first parent entry's `dom` value of a successful build. -/
def responseParentEntryDom (r : Except RenderNotModifiedError Payload × ComponentRequest) :
    Option (Option Element) :=
  (responsePayload r).bind (fun p => p.parent.map (fun ch => ch.entry.dom))

/-- Claim C6: when no element of the force-rendered ancestor's freshly
rendered markup carries the child's stable identifier, the build still
succeeds, and the ancestor's markup in the payload is unmodified with
respect to the transplant — it carries only the ancestor's own normal
data-checksum stamp. -/
theorem c6_merge_miss_tolerated (component : Component) (P : Component)
    (component_request : ComponentRequest) (return_data : Option ReturnData)
    (hfr : P.force_render = true)
    (hmiss : ∀ x ∈ P.render_result.iter,
      ¬ x.getAttr "unicorn:id" = responseChildUid component component_request) :
    responseIsOk (get_data component [P] component_request return_data []) = true ∧
    responseParentEntryDom (get_data component [P] component_request return_data []) =
      some (some (P.render_result.setAttr "unicorn:meta" (parentDataChecksum P))) := by
  have hanc : (([P] : List Component).isEmpty) = false := rfl
  constructor
  · simp [get_data, responseIsOk]
  · simp only [get_data, List.isEmpty_nil, Bool.not_true, Bool.false_eq_true, if_false,
      List.isEmpty_cons, Bool.and_false, Bool.false_and]
    simp only [responseParentEntryDom, responsePayload]
    simp only [ancestorEntries, hfr, if_true, nestEntries, Option.bind_some, Option.map_some]
    simp only [buildParentEntry, List.isEmpty_nil, if_true, ParentChain.entry]
    rw [updateChildMetaInParent_no_match _ _ _
      (by simpa [responseChildUid, requestDataChecksum] using hmiss)]
    rfl

/-- A parent whose rendered markup contains no element with the child's
identifier. -/
def w6parent : Component :=
  .mk "p6" [] [] true w1dom "" [("page", "6")]
    (.mk "section" [("unicorn:id", "p6")]
      (.cons (.mk "span" [("unicorn:id", "other")] .nil) .nil)) .nil

/-- Witness for C6: the merge miss at a concrete parent markup is
tolerated and leaves only the parent's own stamp. -/
theorem c6_witness_merge_miss_tolerated :
    responseIsOk (get_data w1child [w6parent] w1req none []) = true ∧
    responseParentEntryDom (get_data w1child [w6parent] w1req none []) =
      some (some (w6parent.render_result.setAttr "unicorn:meta" (parentDataChecksum w6parent))) :=
  c6_merge_miss_tolerated w1child w6parent w1req none rfl (by
    intro x hx
    simp only [w6parent, Component.render_result, Element.iter, ElementList.iterList,
      List.append_nil, List.mem_cons, List.mem_singleton] at hx
    rcases hx with h | h | h
    · subst h; decide
    · subst h; decide
    · simp at h)

/-! ## Attribute lemmas for the merge step (C4) -/

theorem lookup_map_set_same (a : List (String × String)) (k v : String)
    (h : (a.lookup k).isSome) :
    ((a.map (fun p => if p.1 = k then (k, v) else p)).lookup k) = some v := by
  induction a with
  | nil => simp [List.lookup] at h
  | cons p ps ih =>
    cases p with
    | mk pk pv =>
      by_cases hp : pk = k
      · subst hp
        rw [List.map_cons, if_pos (show ((pk, pv) : String × String).1 = pk from rfl)]
        simp [List.lookup]
      · have hbk : (k == pk) = false := by
          rw [beq_eq_false_iff_ne]
          exact fun hc => hp hc.symm
        simp only [List.lookup, hbk] at h
        rw [List.map_cons, if_neg hp]
        simp only [List.lookup, hbk]
        exact ih h

theorem lookup_append_set_same (a : List (String × String)) (k v : String)
    (h : a.lookup k = none) :
    ((a ++ [(k, v)]).lookup k) = some v := by
  induction a with
  | nil => simp [List.lookup]
  | cons p ps ih =>
    cases p with
    | mk pk pv =>
      by_cases hp : (k == pk) = true
      · simp [List.lookup, hp] at h
      · have hbk : (k == pk) = false := by
          cases hb : (k == pk)
          · rfl
          · exact absurd hb hp
        simp only [List.lookup, hbk] at h
        simp only [List.cons_append, List.lookup, hbk]
        exact ih h

theorem lookup_map_set_other (a : List (String × String)) (k k' v : String)
    (hne : k' ≠ k) :
    ((a.map (fun p => if p.1 = k then (k, v) else p)).lookup k') = a.lookup k' := by
  induction a with
  | nil => rfl
  | cons p ps ih =>
    cases p with
    | mk pk pv =>
      by_cases hp : pk = k
      · have hbk : (k' == k) = false := by rw [beq_eq_false_iff_ne]; exact hne
        have hbk2 : (k' == pk) = false := by rw [beq_eq_false_iff_ne, hp]; exact hne
        rw [List.map_cons, if_pos hp]
        simp only [List.lookup, hbk, hbk2]
        exact ih
      · rw [List.map_cons, if_neg hp]
        simp only [List.lookup]
        cases hb : (k' == pk)
        · exact ih
        · rfl

theorem lookup_append_set_other (a : List (String × String)) (k k' v : String)
    (hne : k' ≠ k) :
    ((a ++ [(k, v)]).lookup k') = a.lookup k' := by
  induction a with
  | nil =>
    have hbk : (k' == k) = false := by rw [beq_eq_false_iff_ne]; exact hne
    simp [List.lookup, hbk]
  | cons p ps ih =>
    cases p with
    | mk pk pv =>
      simp only [List.cons_append, List.lookup]
      cases hb : (k' == pk)
      · exact ih
      · rfl

theorem getAttr_setAttr_same (e : Element) (k v : String) :
    (e.setAttr k v).getAttr k = some v := by
  cases e with
  | mk t a cs =>
    simp only [Element.setAttr]
    by_cases h : (a.lookup k).isSome
    · rw [if_pos h]
      exact lookup_map_set_same a k v h
    · rw [if_neg h]
      have hn : a.lookup k = none := by
        cases hl : a.lookup k
        · rfl
        · exact absurd (by rw [hl]; rfl) h
      exact lookup_append_set_same a k v hn

theorem getAttr_setAttr_other (e : Element) (k k' v : String) (hne : k' ≠ k) :
    (e.setAttr k v).getAttr k' = e.getAttr k' := by
  cases e with
  | mk t a cs =>
    simp only [Element.setAttr]
    by_cases h : (a.lookup k).isSome
    · rw [if_pos h]
      exact lookup_map_set_other a k k' v hne
    · rw [if_neg h]
      exact lookup_append_set_other a k k' v hne

theorem children_setAttr (e : Element) (k v : String) :
    (e.setAttr k v).children = e.children := by
  cases e with
  | mk t a cs =>
    simp only [Element.setAttr]
    split <;> rfl

theorem iter_eq_cons (e : Element) : e.iter = e :: ElementList.iterList e.children := by
  cases e with
  | mk t a cs => rfl

mutual

theorem setMetaOnMatches_stamps (e : Element) (uid m : String) :
    ∀ x ∈ (setMetaOnMatches e (some uid) m).iter,
      x.getAttr "unicorn:id" = some uid → x.getAttr "unicorn:meta" = some m :=
  match e with
  | .mk t a cs => by
    intro x hx hxid
    by_cases hmatch : ((a.lookup "unicorn:id") == some uid) = true
    · simp only [setMetaOnMatches, hmatch, if_true] at hx
      rw [iter_eq_cons, children_setAttr] at hx
      rcases List.mem_cons.mp hx with rfl | hx'
      · exact getAttr_setAttr_same _ _ _
      · exact setMetaOnMatchesList_stamps cs uid m x
          (by simpa [Element.children] using hx') hxid
    · have hm' : ((a.lookup "unicorn:id") == some uid) = false := by
        cases hb : ((a.lookup "unicorn:id") == some uid)
        · rfl
        · exact absurd hb hmatch
      simp only [setMetaOnMatches, hm', Bool.false_eq_true, if_false] at hx
      rw [iter_eq_cons] at hx
      rcases List.mem_cons.mp hx with rfl | hx'
      · have hlook : a.lookup "unicorn:id" = some uid := by
          simpa [Element.getAttr] using hxid
        exact absurd hlook (beq_eq_false_iff_ne.mp hm')
      · exact setMetaOnMatchesList_stamps cs uid m x
          (by simpa [Element.children] using hx') hxid

theorem setMetaOnMatchesList_stamps (l : ElementList) (uid m : String) :
    ∀ x ∈ (setMetaOnMatchesList l (some uid) m).iterList,
      x.getAttr "unicorn:id" = some uid → x.getAttr "unicorn:meta" = some m :=
  match l with
  | .nil => by
    intro x hx
    simp [setMetaOnMatchesList, ElementList.iterList] at hx
  | .cons c cs => by
    intro x hx hxid
    simp only [setMetaOnMatchesList, ElementList.iterList, List.mem_append] at hx
    rcases hx with h | h
    · exact setMetaOnMatches_stamps c uid m x h hxid
    · exact setMetaOnMatchesList_stamps cs uid m x h hxid

end

theorem get_data_one_parent_fr (component P : Component)
    (component_request : ComponentRequest) (return_data : Option ReturnData)
    (hfr : P.force_render = true) :
    get_data component [P] component_request return_data [] =
      (.ok { id := (normalizeRequest component_request).id,
             data := (normalizeRequest component_request).data,
             errors := component.errors,
             calls := collect_all_calls component,
             meta := requestDataChecksum component_request ++ ":" ++
               componentContentHash component ++ ":" ++
               toString (normalizeRequest component_request).epoch,
             dom := some none,
             partials := none,
             ret := return_data.map ReturnData.get_data,
             redirect := return_data.bind ReturnData.redirect,
             poll := return_data.bind ReturnData.poll,
             parent := some (ParentChain.mk
               (buildParentEntry (normalizeRequest component_request).epoch []
                 (responseChildUid component component_request)
                 (requestDataChecksum component_request) P) none) },
       normalizeRequest component_request) := by
  have hm := getAttr_setAttr_same component.last_rendered_dom "unicorn:meta"
    (generate_checksum (normalizeRequest component_request).data)
  unfold get_data
  dsimp only
  simp only [List.isEmpty_nil, List.isEmpty_cons, Bool.not_true, Bool.and_false,
    Bool.false_and, Bool.false_eq_true, if_false, anyForceRender, hfr, Bool.true_or,
    Bool.or_false, if_true, ancestorEntries, nestEntries, hm, Option.getD_some,
    responseChildUid, requestDataChecksum]

theorem children_setMetaOnMatches (e : Element) (uid : Option String) (m : String) :
    (setMetaOnMatches e uid m).children = setMetaOnMatchesList e.children uid m := by
  cases e with
  | mk t a cs =>
    simp only [setMetaOnMatches]
    split
    · rw [children_setAttr]; rfl
    · rfl

theorem rootId_setMetaOnMatches (e : Element) (uid : Option String) (m : String) :
    (setMetaOnMatches e uid m).getAttr "unicorn:id" = e.getAttr "unicorn:id" := by
  cases e with
  | mk t a cs =>
    simp only [setMetaOnMatches]
    split
    · rw [getAttr_setAttr_other _ _ _ _ (by decide)]; rfl
    · rfl

/-- Claim C4: with a `force_render` parent and no partials, the top-level
payload's `dom` key is null (superseded by the parent), and the parent
entry's `dom` holds the parent's re-rendered markup in which every element
carrying the child's stable identifier has been given the child's stamped
meta attribute — the child's data checksum. -/
theorem c4_parent_dom_supersedes (component P : Component)
    (component_request : ComponentRequest) (return_data : Option ReturnData) (cid : String)
    (hfr : P.force_render = true)
    (hcid : responseChildUid component component_request = some cid)
    (hroot : ¬ P.render_result.getAttr "unicorn:id" = some cid) :
    (responsePayload (get_data component [P] component_request return_data [])).map
        Payload.dom = some (some none) ∧
    ∃ parent_dom : Element,
      responseParentEntryDom (get_data component [P] component_request return_data []) =
        some (some parent_dom) ∧
      ∀ x ∈ parent_dom.iter, x.getAttr "unicorn:id" = some cid →
        x.getAttr "unicorn:meta" = some (requestDataChecksum component_request) := by
  rw [get_data_one_parent_fr component P component_request return_data hfr]
  refine ⟨rfl, ?_⟩
  have hbroot : (P.render_result.getAttr "unicorn:id" == some cid) = false :=
    beq_eq_false_iff_ne.mpr hroot
  refine ⟨(updateChildMetaInParent P.render_result (some cid)
      (requestDataChecksum component_request)).setAttr "unicorn:meta"
      (checksumString (pyDictStr P.frontend_context_variables)), ?_, ?_⟩
  · simp only [responseParentEntryDom, responsePayload, ParentChain.entry, buildParentEntry,
      List.isEmpty_nil, if_true, hcid]
    rfl
  · intro x hx hxid
    rw [iter_eq_cons, children_setAttr] at hx
    rcases List.mem_cons.mp hx with rfl | hx'
    · have h1 : (((updateChildMetaInParent P.render_result (some cid)
          (requestDataChecksum component_request)).setAttr "unicorn:meta"
            (checksumString (pyDictStr P.frontend_context_variables))).getAttr
          "unicorn:id") = P.render_result.getAttr "unicorn:id" := by
        rw [getAttr_setAttr_other _ _ _ _ (by decide)]
        unfold updateChildMetaInParent
        rw [hbroot]
        simp only [Bool.false_eq_true, if_false]
        exact rootId_setMetaOnMatches _ _ _
      exact absurd (h1 ▸ hxid) hroot
    · have hch : (updateChildMetaInParent P.render_result (some cid)
          (requestDataChecksum component_request)).children =
            setMetaOnMatchesList P.render_result.children (some cid)
              (requestDataChecksum component_request) := by
        unfold updateChildMetaInParent
        rw [hbroot]
        simp only [Bool.false_eq_true, if_false]
        exact children_setMetaOnMatches _ _ _
      rw [hch] at hx'
      exact setMetaOnMatchesList_stamps _ _ _ x hx' hxid

/-- Witness for C4: at the concrete parent/child fixture, the top `dom` is
null and the parent markup carries the child's checksum stamp. -/
theorem c4_witness_parent_dom_supersedes :
    (responsePayload (get_data w1child [w1parent] w1req none [])).map
        Payload.dom = some (some none) ∧
    ∃ parent_dom : Element,
      responseParentEntryDom (get_data w1child [w1parent] w1req none []) =
        some (some parent_dom) ∧
      ∀ x ∈ parent_dom.iter, x.getAttr "unicorn:id" = some "c1" →
        x.getAttr "unicorn:meta" = some (requestDataChecksum w1req) :=
  c4_parent_dom_supersedes w1child w1parent w1req none "c1" rfl (by decide) (by decide)

/-- The condition under which lines 86-94 of response.py flag the render
as not modified (`render_not_modified = True` when the response is still
returned): no partials were supplied, the client hash matches the content
checksum, the return value is absent or falsy, and no calls are pending. -/
def render_not_modified (component : Component) (component_request : ComponentRequest)
    (return_data : Option ReturnData) (partials : List String) : Bool :=
  partials.isEmpty
    && (component_request.hash == componentContentHash component)
    && returnValueFalsy return_data
    && (collect_all_calls component).isEmpty

/-- Counterexample for C3: a response that is unmodified-but-still-returned
(the not-modified condition holds and the build still succeeds because the
node has a parent) carries the THREE-part meta string, not the two-part
one the claim requires for that case. -/
theorem c3_counterexample_meta_format :
    render_not_modified w1child w1req none [] = true ∧
    responseIsOk (get_data w1child [w1parent] w1req none []) = true ∧
    responseMeta (get_data w1child [w1parent] w1req none []) ≠
      some (requestDataChecksum w1req ++ "::" ++ toString w1req.epoch) := by
  refine ⟨by decide, by decide, ?_⟩
  decide

/-- Claim C3 as amended: for every successful build, the payload's `meta`
is the two-part string `<dataChecksum>::<epoch>` exactly when partial
fragments were supplied (whole-node rendering skipped), and the three-part
string `<dataChecksum>:<contentChecksum>:<epoch>` otherwise — even for
unmodified-but-still-returned responses; the epoch is the request
envelope's epoch echoed unchanged. -/
theorem c3_meta_format (component : Component) (ancestors : List Component)
    (component_request : ComponentRequest) (return_data : Option ReturnData)
    (partials : List String)
    (hok : responseIsOk (get_data component ancestors component_request return_data partials) =
      true) :
    responseMeta (get_data component ancestors component_request return_data partials) =
      some (if partials.isEmpty then
        requestDataChecksum component_request ++ ":" ++ componentContentHash component ++
          ":" ++ toString component_request.epoch
      else
        requestDataChecksum component_request ++ "::" ++ toString component_request.epoch) := by
  have hep := normalizeRequest_epoch component_request
  by_cases hp : partials.isEmpty
  · rw [if_pos hp]
    by_cases hcond :
        ((normalizeRequest component_request).hash == componentContentHash component
          && returnValueFalsy return_data
          && (collect_all_calls component).isEmpty
          && ancestors.isEmpty
          && (component.force_render == false)) = true
    · exfalso
      have : responseIsOk (get_data component ancestors component_request return_data
          partials) = false := by
        simp only [get_data, responseIsOk, hp, Bool.not_true, Bool.false_eq_true, if_false,
          hcond, if_true]
      rw [this] at hok
      exact Bool.false_ne_true hok
    · simp only [get_data, responseMeta, responsePayload, hp, Bool.not_true,
        Bool.false_eq_true, if_false, hcond, Bool.not_eq_true]
      simp only [hp, Bool.not_true, Bool.false_eq_true, if_false, hcond,
        requestDataChecksum, hep]
      rfl
  · rw [if_neg hp]
    have hp' : (!partials.isEmpty) = true := by
      cases hb : partials.isEmpty
      · rfl
      · exact absurd hb hp
    simp only [get_data, responseMeta, responsePayload, hp', if_true,
      requestDataChecksum, hep]
    rfl

/-- Witness for the amended C3: the unmodified-but-still-returned fixture
carries the three-part meta. -/
theorem c3_witness_meta_format :
    responseMeta (get_data w1child [w1parent] w1req none []) =
      some (if ([] : List String).isEmpty then
        requestDataChecksum w1req ++ ":" ++ componentContentHash w1child ++ ":" ++
          toString w1req.epoch
      else
        requestDataChecksum w1req ++ "::" ++ toString w1req.epoch) :=
  c3_meta_format w1child [w1parent] w1req none [] (by decide)

/-- The nested `parent` chain of a successful build. -/
def responseParentChain (r : Except RenderNotModifiedError Payload × ComponentRequest) :
    Option ParentChain :=
  (responsePayload r).bind Payload.parent

/-- A force-rendered grandparent whose markup embeds the parent's region
(and, inside it, the child's). -/
def w5grand : Component :=
  .mk "g1" [] [] true w1dom "" [("page", "g")]
    (.mk "main" [("unicorn:id", "g1")]
      (.cons (.mk "section" [("unicorn:id", "p1")] (.cons w1dom .nil)) .nil)) .nil

/-- C5, behaviour at the failing input (two force-rendered ancestors):
the top-level `dom` is nulled, the walk produced two parent levels (the
grandparent's entry is present with id `g1`), yet the intermediate
parent's entry still carries its own `dom` — `result["dom"] = None`
(response.py line 171) always nulls the top level only, never the level
below the current ancestor. -/
theorem c5_intermediate_dom_kept :
    (responsePayload (get_data w1child [w1parent, w5grand] w1req none [])).map
        (fun p => p.dom.map Option.isSome) = some (some false) ∧
    (responseParentChain (get_data w1child [w1parent, w5grand] w1req none [])).map
        (fun ch => ch.entry.dom.isSome) = some true ∧
    ((responseParentChain (get_data w1child [w1parent, w5grand] w1req none [])).bind
        ParentChain.parent).map (fun ch => ch.entry.id) = some "g1" := by
  decide

/-! ## Tree cache synchronizer: `resolve_child` (spec-modelled)

`UnicornView.create` is not among the sources under verification — only
its regression test (`test_child_self_parent_is_in_memory_parent_after_create`)
is.  The resolver is therefore modelled from the spec's §4.4 contract.
Python object identity is modelled by references (indices) into a
per-request store of live objects: two references denote the same object
exactly when they are the same index. -/

/-- Modelled from the spec: a live in-memory component object as the
cache synchronizer sees it — its id and its current field values. -/
structure LiveComponent where
  component_id : String
  fields : List (String × String)

/-- Modelled from the spec: the per-request collection of live in-memory
objects; an index into it models a Python object reference. -/
structure LiveStore where
  objs : List LiveComponent

/-- Dereference a live-object reference. -/
def LiveStore.deref (store : LiveStore) (ref : Nat) : Option LiveComponent :=
  store.objs.get? ref

/-- The resolved child: identity, type name, and its `parent` link — a
reference to a live object in the store. -/
structure ResolvedChild where
  component_id : String
  component_name : String
  parentRef : Option Nat

/-- Modelled from the spec: `resolve_child(component_id, component_name,
parent, request)` (`UnicornView.create`): "If an in-memory `parent`
reference is supplied by the caller, the resolved child's `parent` link
must be set to that exact object (identity, not a value-equal
reconstruction), even if the external cache independently holds a
serialized parent snapshot under the same logical key."  Without a
supplied parent, any cached snapshot is deserialized into a fresh object
appended to the store, and the link points at that copy. -/
def resolve_child (store : LiveStore) (cache : List (String × LiveComponent))
    (component_id component_name parent_cache_key : String) (parent : Option Nat) :
    ResolvedChild × LiveStore :=
  match parent with
  | some p =>
    ({ component_id := component_id, component_name := component_name,
       parentRef := some p }, store)
  | none =>
    match cache.lookup parent_cache_key with
    | some snapshot =>
      ({ component_id := component_id, component_name := component_name,
         parentRef := some store.objs.length },
       { objs := store.objs ++ [snapshot] })
    | none =>
      ({ component_id := component_id, component_name := component_name,
         parentRef := none }, store)

/-- Claim C9: resolving a child with an explicit in-memory parent
reference links the child to that exact live object — the store is
untouched, the link is the supplied reference, and reading through the
link yields the live parent's current field values, not the value-different
snapshot the cache holds under the same logical key. -/
theorem c9_parent_identity (store : LiveStore) (cache : List (String × LiveComponent))
    (component_id component_name parent_cache_key : String) (p : Nat)
    (liveParent snapshot : LiveComponent)
    (hlive : store.deref p = some liveParent)
    (hcache : cache.lookup parent_cache_key = some snapshot)
    (hdiff : snapshot.fields ≠ liveParent.fields) :
    (resolve_child store cache component_id component_name parent_cache_key
        (some p)).1.parentRef = some p ∧
    (resolve_child store cache component_id component_name parent_cache_key
        (some p)).2 = store ∧
    (resolve_child store cache component_id component_name parent_cache_key
        (some p)).2.deref p = some liveParent ∧
    ¬ (resolve_child store cache component_id component_name parent_cache_key
        (some p)).2.deref p = some snapshot := by
  refine ⟨rfl, rfl, hlive, ?_⟩
  rw [show (resolve_child store cache component_id component_name parent_cache_key
    (some p)).2 = store from rfl, hlive]
  intro hc
  exact hdiff (congrArg LiveComponent.fields (Option.some.inj hc)).symm

/-- The live parent after its state changed in memory. -/
def w9live : LiveComponent := { component_id := "p9", fields := [("current_page", "chapter-2")] }

/-- The stale snapshot of the same parent held by the external cache. -/
def w9snapshot : LiveComponent := { component_id := "p9", fields := [("current_page", "root")] }

/-- Witness for C9: with the live parent at reference 0 and a stale cache
snapshot under its key, the resolved child's link is reference 0 and reads
the live value. -/
theorem c9_witness_parent_identity :
    (resolve_child ⟨[w9live]⟩ [("p9-key", w9snapshot)] "c9" "ChildView" "p9-key"
        (some 0)).1.parentRef = some 0 ∧
    (resolve_child ⟨[w9live]⟩ [("p9-key", w9snapshot)] "c9" "ChildView" "p9-key"
        (some 0)).2 = ⟨[w9live]⟩ ∧
    (resolve_child ⟨[w9live]⟩ [("p9-key", w9snapshot)] "c9" "ChildView" "p9-key"
        (some 0)).2.deref 0 = some w9live ∧
    ¬ (resolve_child ⟨[w9live]⟩ [("p9-key", w9snapshot)] "c9" "ChildView" "p9-key"
        (some 0)).2.deref 0 = some w9snapshot :=
  c9_parent_identity ⟨[w9live]⟩ [("p9-key", w9snapshot)] "c9" "ChildView" "p9-key" 0
    w9live w9snapshot rfl rfl (by decide)
